import Mathlib

/-!
Shallow embedding of the email assistant's classification core
(rules engine, classifier, ML predictor wrapper, processed ledger,
statistics aggregator, label workflow), with theorems checking the
specification's claims against it.

Python strings are modelled as Lean `String`; `str.lower`, `str.strip`
and the substring test `in` are modelled on ASCII data, which is the
range the rules/labels in this system use.  Machine effects (SQLite
rows, JSON documents, Gmail API calls) are modelled as explicit state
passed through the functions; a Python call that may raise is modelled
in the `Except` monad.
-/

namespace EmailAssistant

/-- The characters removed by Python `str.strip()` with no argument
(ASCII whitespace). -/
def pyIsSpace (c : Char) : Bool :=
  c == ' ' || c == '\t' || c == '\n' || c == '\x0d' || c == '\x0b' || c == '\x0c'

/-- Python `str.lower()` (ASCII range). -/
def pyLower (s : String) : String :=
  ⟨s.data.map Char.toLower⟩

/-- Drop leading whitespace from a character list. -/
def frontTrim (l : List Char) : List Char :=
  l.dropWhile pyIsSpace

/-- Drop trailing whitespace from a character list. -/
def backTrim (l : List Char) : List Char :=
  (l.reverse.dropWhile pyIsSpace).reverse

/-- Python `str.strip()`: remove leading and trailing whitespace. -/
def pyStrip (s : String) : String :=
  ⟨backTrim (frontTrim s.data)⟩

/-- Python `needle in hay` on strings: substring containment. -/
def pyContains (hay needle : String) : Bool :=
  decide (needle.data <:+: hay.data)

/-- `models/email_message.py` — `EmailMessage`: simplified representation
of a Gmail message (the `received_at` timestamp plays no role in the
classification core and is modelled as an opaque optional field). -/
structure EmailMessage where
  id : String
  thread_id : Option String
  subject : String
  body : String
  snippet : String
  sender : Option String := none
  labels : List String := []
deriving Repr, DecidableEq

/-- `models/rule.py` — `Rule`: keyword-based rule definition for labeling. -/
structure Rule where
  label : String
  keywords : List String
  match_subject : Bool := true
  match_body : Bool := true
  priority : Int := 0
deriving Repr, DecidableEq

/-- `Rule.normalized_keywords`. -/
def Rule.normalized_keywords (r : Rule) : List String :=
  r.keywords.map pyLower

/-- A raw configuration entry for a rule, as read by
`RulesEngine.reload` from the JSON rules file; optional fields model
JSON keys that may be absent. -/
structure RuleItem where
  label : String
  keywords : Option (List String) := none
  match_subject : Option Bool := none
  match_body : Option Bool := none
  priority : Option Int := none

/-- `RulesEngine.reload`, per item: `item.get("keywords", [])`,
`item.get("match_subject", True)`, `item.get("match_body", True)`,
`item.get("priority", 0)`. -/
def ruleOfItem (item : RuleItem) : Rule :=
  { label := item.label
    keywords := item.keywords.getD []
    match_subject := item.match_subject.getD true
    match_body := item.match_body.getD true
    priority := item.priority.getD 0 }

/-- The sort key used by `RulesEngine.match`:
`sorted(self._rules, key=lambda r: r.priority, reverse=True)` places `a`
before `b` when `b.priority ≤ a.priority` (stable descending sort). -/
def ruleBefore (a b : Rule) : Prop :=
  b.priority ≤ a.priority

instance : DecidableRel ruleBefore :=
  fun a b => inferInstanceAs (Decidable (b.priority ≤ a.priority))

instance : IsTotal Rule ruleBefore :=
  ⟨fun a b => (Int.le_total b.priority a.priority).imp id id⟩

instance : IsTrans Rule ruleBefore :=
  ⟨fun _ _ _ hab hbc => le_trans hbc hab⟩

/-- Python's `sorted(rules, key=priority, reverse=True)`: a stable sort
placing higher priorities first; modelled by insertion sort, which is
stable. -/
def sortRulesDesc (rules : List Rule) : List Rule :=
  List.insertionSort ruleBefore rules

/-- The per-rule match test inside `RulesEngine.match`'s loop, with
`subject` and `body` already lowercased. -/
def ruleMatches (subject body : String) (r : Rule) : Bool :=
  let keywords := r.normalized_keywords
  let subject_hit := r.match_subject && keywords.any (fun kw => pyContains subject kw)
  let body_hit := r.match_body && keywords.any (fun kw => pyContains body kw)
  subject_hit || body_hit

/-- `utils/rules_engine.py` — `RulesEngine.match`: lowercase subject and
body, walk the rules in descending-priority order, collect the labels of
the matching rules. -/
def RulesEngine.match (rules : List Rule) (email : EmailMessage) : List String :=
  let subject := pyLower email.subject
  let body := pyLower email.body
  ((sortRulesDesc rules).filter (ruleMatches subject body)).map Rule.label

/-- `services/email_classifier.py` — the well-known label vocabulary
`DEFAULT_LABELS` (a Python set of five distinct strings, modelled as a
list). -/
def DEFAULT_LABELS : List String :=
  ["Work", "Personal", "Finance", "Promotions", "Spam"]

/-- `EmailClassifier._canonical_name`: look the lowercase form up in
`{value.lower(): value for value in DEFAULT_LABELS}`, falling back to
the name itself. -/
def canonicalName (name : String) : String :=
  match DEFAULT_LABELS.find? (fun v => pyLower v == pyLower name) with
  | some v => v
  | none => name

/-- One iteration of the loop in `EmailClassifier._filter_allowed_labels`:
strip the label; drop it if empty; canonicalize it if its lowercase form
is a well-known label; otherwise keep the stripped form. -/
def cleanLabel (label : String) : Option String :=
  if pyStrip label = "" then none
  else if DEFAULT_LABELS.any (fun v => pyLower v == pyLower (pyStrip label)) then
    some (canonicalName (pyStrip label))
  else
    some (pyStrip label)

/-- `EmailClassifier._filter_allowed_labels`: build the set `cleaned` of
cleaned labels and return `sorted(cleaned)` (a sorted, duplicate-free
list). -/
def filterAllowedLabels (labels : List String) : List String :=
  List.insertionSort (fun a b : String => a ≤ b) (labels.filterMap cleanLabel).dedup

/-- `services/ml_classifier.py` — `MLClassifier`: thin wrapper around an
optional model.  The two possible underlying pipelines are external
collaborators; each is modelled as a function from the input text to
either a raised exception (`Except.error`) or its Python return value —
a predicted label for the scikit-learn pipeline, a list of result
labels for the transformer pipeline. -/
structure MLClassifier where
  sklearn_pipeline : Option (String → Except String String) := none
  transformer_pipeline : Option (String → Except String (List String)) := none

/-- `MLClassifier.is_ready`. -/
def MLClassifier.is_ready (c : MLClassifier) : Bool :=
  c.sklearn_pipeline.isSome || c.transformer_pipeline.isSome

/-- `MLClassifier.predict`: returns `None` on empty text or when not
ready; otherwise calls the underlying pipeline with no exception
handling, so a pipeline failure propagates to the caller. -/
def MLClassifier.predict (c : MLClassifier) (text : String) : Except String (Option String) :=
  if text = "" || !c.is_ready then Except.ok none
  else
    match c.sklearn_pipeline with
    | some pipe => (pipe text).map (fun prediction => some prediction)
    | none =>
      match c.transformer_pipeline with
      | some pipe => (pipe text).map (fun result => result.head?)
      | none => Except.ok none

/-- `services/email_classifier.py` — `EmailClassifier`.  Its
`rules_engine` collaborator is modelled as a function that either
returns the matched labels or raises, because `classify` invokes
`self.rules_engine.match(email)` outside any exception handler. -/
structure EmailClassifier where
  rules_engine : EmailMessage → Except String (List String)
  ml_classifier : Option MLClassifier := none

/-- The text handed to the predictor in `_ml_prediction`. -/
def mlText (email : EmailMessage) : String :=
  email.subject ++ "\n" ++ email.body

/-- `EmailClassifier._ml_prediction`: `None` when no classifier is
configured or it is not ready; otherwise `predict`, with any raised
exception caught and turned into `None`. -/
def EmailClassifier.mlPrediction (c : EmailClassifier) (email : EmailMessage) : Option String :=
  match c.ml_classifier with
  | none => none
  | some ml =>
    if !ml.is_ready then none
    else
      match ml.predict (mlText email) with
      | Except.ok prediction => prediction
      | Except.error _ => none

/-- `EmailClassifier.classify`: take the rule labels (a raised exception
propagates), add the ML prediction when truthy (`if prediction:` is
false for `None` and for the empty string), filter/canonicalize, and
return the sorted result. -/
def EmailClassifier.classify (c : EmailClassifier) (email : EmailMessage) :
    Except String (List String) := do
  let ruleLabels ← c.rules_engine email
  let labels :=
    match c.mlPrediction email with
    | some prediction => if prediction ≠ "" then ruleLabels ++ [prediction] else ruleLabels
    | none => ruleLabels
  pure (filterAllowedLabels labels)

/-- The classifier as actually assembled with a concrete `RulesEngine`
over a loaded rule list: `RulesEngine.match` is a pure function of the
rules and the message and never raises. -/
def EmailClassifier.ofEngine (rules : List Rule) (ml : Option MLClassifier) : EmailClassifier :=
  { rules_engine := fun email => Except.ok (RulesEngine.match rules email)
    ml_classifier := ml }

/-- The raw labels produced by the classifier's two sources (rule-based
labels plus the truthy ML prediction) before canonicalization. -/
def rawLabels (rules : List Rule) (ml : Option MLClassifier) (email : EmailMessage) :
    List String :=
  RulesEngine.match rules email ++
    match (EmailClassifier.ofEngine rules ml).mlPrediction email with
    | some prediction => if prediction ≠ "" then [prediction] else []
    | none => []

/-- `services/persistence_service.py` — `ProcessedStore`: the SQLite
table `processed_emails` with primary key `(account, message_id)` and a
`processed_at` column, modelled as its list of rows. -/
structure ProcessedStore where
  rows : List ((String × String) × String)
deriving Repr, DecidableEq

/-- A freshly created store (`_ensure_schema` on a new database file). -/
def ProcessedStore.empty : ProcessedStore := ⟨[]⟩

/-- `ProcessedStore.is_processed`: `SELECT 1 ... WHERE account=? AND
message_id=?` finds a row. -/
def ProcessedStore.is_processed (s : ProcessedStore) (account message_id : String) : Bool :=
  s.rows.any (fun r => r.1 == (account, message_id))

/-- `ProcessedStore.mark_processed`: `INSERT OR REPLACE` — any row with
the same primary key is replaced by the new row carrying the current
timestamp (the timestamp is an explicit argument of the model). -/
def ProcessedStore.mark_processed (s : ProcessedStore) (account message_id timestamp : String) :
    ProcessedStore :=
  ⟨s.rows.filter (fun r => !(r.1 == (account, message_id))) ++
    [((account, message_id), timestamp)]⟩

/-- `services/statistics_service.py` — one bucket of counters; the
global document and each per-account bucket share this shape. -/
structure StatsBucket where
  fetch_runs : Nat := 0
  emails_seen : Nat := 0
  label_runs : Nat := 0
  labels : List (String × Nat) := []
deriving Repr, DecidableEq

/-- The whole stats JSON document: global counters plus the `accounts`
map (an insertion-ordered Python dict, modelled as an association
list). -/
structure Stats where
  global : StatsBucket := {}
  accounts : List (String × StatsBucket) := []
deriving Repr, DecidableEq

/-- A fresh stats file (`{}`: every counter reads as 0). -/
def Stats.empty : Stats := {}

/-- `stats.setdefault("accounts", {}).setdefault(account, {})` followed
by a mutation `f` of the bucket: update in place if present, else append
a fresh bucket. -/
def updateAccount (accounts : List (String × StatsBucket)) (account : String)
    (f : StatsBucket → StatsBucket) : List (String × StatsBucket) :=
  if accounts.any (fun p => p.1 == account) then
    accounts.map (fun p => if p.1 == account then (p.1, f p.2) else p)
  else
    accounts ++ [(account, f {})]

/-- The counter updates `record_fetch` applies to a bucket. -/
def bucketRecordFetch (count : Nat) (b : StatsBucket) : StatsBucket :=
  { b with fetch_runs := b.fetch_runs + 1, emails_seen := b.emails_seen + count }

/-- `StatisticsService.record_fetch`. -/
def StatisticsService.record_fetch (s : Stats) (account : String) (count : Nat) : Stats :=
  { global := bucketRecordFetch count s.global
    accounts := updateAccount s.accounts account (bucketRecordFetch count) }

/-- `labels[label] += count` on a `Counter` modelled as an association
list: bump in place if present, else append. -/
def bumpLabel (labels : List (String × Nat)) (label : String) (count : Nat) :
    List (String × Nat) :=
  if labels.any (fun p => p.1 == label) then
    labels.map (fun p => if p.1 == label then (p.1, p.2 + count) else p)
  else
    labels ++ [(label, count)]

/-- The counter updates `record_label_application` applies to a bucket. -/
def bucketRecordLabels (counts : List (String × Nat)) (b : StatsBucket) : StatsBucket :=
  { b with label_runs := b.label_runs + 1
           labels := counts.foldl (fun acc pair => bumpLabel acc pair.1 pair.2) b.labels }

/-- `StatisticsService.record_label_application`. -/
def StatisticsService.record_label_application (s : Stats) (account : String)
    (counts : List (String × Nat)) : Stats :=
  { global := bucketRecordLabels counts s.global
    accounts := updateAccount s.accounts account (bucketRecordLabels counts) }

/-- The value of a counter read back from the stats document with
`data.get(key, 0)` semantics: a missing account bucket reads as all
zeros. -/
def Stats.accountBucket (s : Stats) (account : String) : StatsBucket :=
  match s.accounts.find? (fun p => p.1 == account) with
  | some p => p.2
  | none => {}

/-- The Gmail calls `main._perform_label` makes, as an ordered log:
`ensure_label` calls (by label name) and `apply_labels` calls (message
id with the applied label ids). -/
structure MailboxLog where
  ensured : List String := []
  applied : List (String × List String) := []
deriving Repr, DecidableEq

/-- The mutable state threaded through `_perform_label`'s loop:
`label_cache`, the `applied_labels` counter (kept as the multiset of
recorded label applications), the `skipped` counter, the ledger, the
mailbox call log and the stats document. -/
structure RunState where
  cache : List (String × String) := []
  appliedLabels : List String := []
  skipped : Nat := 0
  store : ProcessedStore
  mail : MailboxLog := {}
  stats : Stats := {}
deriving Repr, DecidableEq

/-- The label-id resolution loop of `_perform_label`'s non-dry-run
branch: for each label, reuse the cached id or call
`gmail.ensure_label` (recorded in the log) and cache the result. -/
def resolveIds (ensureLabelId : String → String) :
    List String → List (String × String) → MailboxLog →
      List (String × String) × MailboxLog × List String
  | [], cache, mail => (cache, mail, [])
  | label :: rest, cache, mail =>
    match cache.lookup label with
    | some id =>
      let (c, m, ids) := resolveIds ensureLabelId rest cache mail
      (c, m, id :: ids)
    | none =>
      let id := ensureLabelId label
      let (c, m, ids) :=
        resolveIds ensureLabelId rest (cache ++ [(label, id)])
          { mail with ensured := mail.ensured ++ [label] }
      (c, m, id :: ids)

/-- One iteration of `_perform_label`'s message loop: skip (and count)
already-processed messages; classify; skip silently on no labels; in
dry-run only print; otherwise resolve label ids, apply them in one call
and mark the message processed; finally count every intended label. -/
def labelStep (classify : EmailMessage → List String) (ensureLabelId : String → String)
    (account timestamp : String) (dry_run : Bool) (st : RunState) (email : EmailMessage) :
    RunState :=
  if st.store.is_processed account email.id then
    { st with skipped := st.skipped + 1 }
  else
    let labels := classify email
    if labels = [] then st
    else
      let st2 :=
        if dry_run then st
        else
          let (cache, mail, label_ids) := resolveIds ensureLabelId labels st.cache st.mail
          { st with
            cache := cache
            mail := { mail with applied := mail.applied ++ [(email.id, label_ids)] }
            store := st.store.mark_processed account email.id timestamp }
      { st2 with appliedLabels := st2.appliedLabels ++ labels }

/-- The per-label counts of a `Counter` built by repeated `+= 1`,
read off from the multiset of increments. -/
def countsOf (labels : List String) : List (String × Nat) :=
  labels.dedup.map (fun l => (l, labels.count l))

/-- The message loop of `main._perform_label` run over the whole batch,
starting from the fetched state. -/
def runLoop (classify : EmailMessage → List String) (ensureLabelId : String → String)
    (account timestamp : String) (dry_run : Bool) (emails : List EmailMessage)
    (store : ProcessedStore) (stats : Stats) : RunState :=
  emails.foldl (labelStep classify ensureLabelId account timestamp dry_run)
    { store := store, stats := stats }

/-- The post-loop step of `_perform_label`: `if applied_labels and not
dry_run: stats.record_label_application(...)` — one statistics write for
the whole batch. -/
def finalizeStats (account : String) (dry_run : Bool) (st : RunState) : RunState :=
  if st.appliedLabels ≠ [] && !dry_run then
    { st with
      stats :=
        StatisticsService.record_label_application st.stats account
          (countsOf st.appliedLabels) }
  else st

/-- `main._perform_label`, given the already-fetched batch: `None` when
the fetch was empty; otherwise run the loop over the messages, record
the label application in Statistics once iff any label was counted and
this is not a dry run, and return the counter and the skipped count. -/
def performLabel (classify : EmailMessage → List String) (ensureLabelId : String → String)
    (account timestamp : String) (emails : List EmailMessage)
    (store : ProcessedStore) (stats : Stats) (dry_run : Bool) :
    Option (List (String × Nat) × Nat) × RunState :=
  if emails = [] then (none, { store := store, stats := stats })
  else
    (some (countsOf (finalizeStats account dry_run
        (runLoop classify ensureLabelId account timestamp dry_run emails
          store stats)).appliedLabels,
      (finalizeStats account dry_run
        (runLoop classify ensureLabelId account timestamp dry_run emails
          store stats)).skipped),
     finalizeStats account dry_run
       (runLoop classify ensureLabelId account timestamp dry_run emails store stats))

/-- A history of `mark_processed` calls `(account, message_id, timestamp)`
replayed against a fresh store. -/
def applyMarks (ops : List (String × String × String)) : ProcessedStore :=
  ops.foldl (fun s op => s.mark_processed op.1 op.2.1 op.2.2) ProcessedStore.empty

/-- A sample message used to evaluate the model at concrete inputs. -/
def sampleEmail : EmailMessage :=
  { id := "m1", thread_id := none, subject := "Hello", body := "this is an invoice",
    snippet := "" }

/-- An ML classifier whose underlying pipeline always predicts `"Y"`. -/
def mlPredictY : MLClassifier :=
  { sklearn_pipeline := some (fun _ => Except.ok "Y") }

/-- An ML classifier whose underlying pipeline always raises. -/
def mlRaising : MLClassifier :=
  { sklearn_pipeline := some (fun _ => Except.error "model failure") }

/-- A concrete classification function for exercising the label workflow. -/
def demoClassify : EmailMessage → List String :=
  fun e => if e.id == "fresh1" then ["Work"] else ["Spam"]

/-- A concrete `ensure_label` collaborator mapping names to ids. -/
def demoEnsure : String → String := fun name => "id:" ++ name

/-- A message whose id is already recorded in the demo ledger. -/
def emailAbc : EmailMessage :=
  { id := "abc", thread_id := none, subject := "s1", body := "b1", snippet := "" }

/-- A message not yet recorded in the demo ledger. -/
def emailFresh : EmailMessage :=
  { id := "fresh1", thread_id := none, subject := "s2", body := "b2", snippet := "" }

/-! ## Processed-ledger lemmas -/

lemma is_processed_iff (s : ProcessedStore) (a i : String) :
    s.is_processed a i = true ↔ ∃ t, ((a, i), t) ∈ s.rows := by
  simp only [ProcessedStore.is_processed, List.any_eq_true, beq_iff_eq]
  constructor
  · rintro ⟨r, hr, he⟩
    exact ⟨r.2, by rwa [← he, Prod.mk.eta]⟩
  · rintro ⟨t, ht⟩
    exact ⟨((a, i), t), ht, rfl⟩

lemma is_processed_mark_self (s : ProcessedStore) (a i t : String) :
    (s.mark_processed a i t).is_processed a i = true := by
  simp [ProcessedStore.is_processed, ProcessedStore.mark_processed]

lemma is_processed_mark_other (s : ProcessedStore) (a i t a' i' : String)
    (h : ¬(a = a' ∧ i = i')) :
    (s.mark_processed a i t).is_processed a' i' = s.is_processed a' i' := by
  have hk : ((a, i) : String × String) ≠ (a', i') := by
    simpa [Prod.ext_iff] using h
  cases hr : s.is_processed a' i' with
  | true =>
    rw [is_processed_iff] at hr ⊢
    obtain ⟨u, hu⟩ := hr
    refine ⟨u, ?_⟩
    simp only [ProcessedStore.mark_processed, List.mem_append, List.mem_filter]
    exact Or.inl ⟨hu, by simp [Ne.symm hk]⟩
  | false =>
    rw [← Bool.not_eq_true] at hr ⊢
    rw [is_processed_iff] at hr ⊢
    rintro ⟨u, hu⟩
    simp only [ProcessedStore.mark_processed, List.mem_append, List.mem_filter,
      List.mem_singleton] at hu
    rcases hu with ⟨hu, -⟩ | hu
    · exact hr ⟨u, hu⟩
    · exact hk (congrArg Prod.fst hu).symm

lemma mark_mark_same (s : ProcessedStore) (a i t t' : String) :
    (s.mark_processed a i t).mark_processed a i t' = s.mark_processed a i t' := by
  simp [ProcessedStore.mark_processed, List.filter_append, List.filter_filter]

lemma applyMarks_not_processed (ops : List (String × String × String)) (a i : String)
    (h : ∀ op ∈ ops, ¬(op.1 = a ∧ op.2.1 = i)) :
    (applyMarks ops).is_processed a i = false := by
  suffices key : ∀ (s : ProcessedStore), s.is_processed a i = false →
      (ops.foldl (fun s op => s.mark_processed op.1 op.2.1 op.2.2) s).is_processed a i = false by
    exact key ProcessedStore.empty rfl
  induction ops with
  | nil => intro s hs; exact hs
  | cons op rest ih =>
    intro s hs
    have hop := h op (List.mem_cons_self op rest)
    refine ih (fun o ho => h o (List.mem_cons_of_mem op ho)) _ ?_
    rw [is_processed_mark_other s op.1 op.2.1 op.2.2 a i hop]
    exact hs

/-- C3: `is_processed` is false for a pair never marked; after one or
two `mark_processed` calls for a pair it is true, the second call
changing nothing but the stored timestamp; and marking one account
never flips `is_processed` for a different account with the same
message id. -/
theorem C3_ledger_idempotence :
    (∀ ops a i, (∀ op ∈ ops, ¬(op.1 = a ∧ op.2.1 = i)) →
      (applyMarks ops).is_processed a i = false) ∧
    (∀ (s : ProcessedStore) (a i t : String),
      (s.mark_processed a i t).is_processed a i = true) ∧
    (∀ (s : ProcessedStore) (a i t t' : String),
      (s.mark_processed a i t).mark_processed a i t' = s.mark_processed a i t') ∧
    (∀ a a' i t, a ≠ a' →
      (ProcessedStore.empty.mark_processed a i t).is_processed a' i = false) := by
  refine ⟨applyMarks_not_processed, is_processed_mark_self, mark_mark_same, ?_⟩
  intro a a' i t hne
  rw [is_processed_mark_other _ _ _ _ _ _ (fun hc => hne hc.1)]
  rfl

/-- Witness for C3 at the concrete inputs of the repository's own
round-trip test: account `"acct"`, message id `"abc"`, other account
`"other"`. -/
theorem C3_ledger_idempotence_witness :
    (applyMarks [("acct", "def", "t0")]).is_processed "acct" "abc" = false ∧
    (ProcessedStore.empty.mark_processed "acct" "abc" "t1").is_processed "acct" "abc" = true ∧
    ((ProcessedStore.empty.mark_processed "acct" "abc" "t1").mark_processed "acct" "abc" "t2" =
      ProcessedStore.empty.mark_processed "acct" "abc" "t2") ∧
    (ProcessedStore.empty.mark_processed "acct" "abc" "t1").is_processed "other" "abc" = false :=
  ⟨C3_ledger_idempotence.1 _ "acct" "abc" (by decide),
   C3_ledger_idempotence.2.1 ProcessedStore.empty "acct" "abc" "t1",
   C3_ledger_idempotence.2.2.1 ProcessedStore.empty "acct" "abc" "t1" "t2",
   C3_ledger_idempotence.2.2.2 "acct" "other" "abc" "t1" (by decide)⟩

/-! ## Statistics lemmas -/

lemma find?_bump_map (acct : String) (f : StatsBucket → StatsBucket) :
    ∀ accounts : List (String × StatsBucket),
      (accounts.map (fun p => if p.1 == acct then (p.1, f p.2) else p)).find?
          (fun p => p.1 == acct) =
        (accounts.find? (fun p => p.1 == acct)).map (fun p => (p.1, f p.2)) := by
  intro accounts
  induction accounts with
  | nil => rfl
  | cons p rest ih =>
    by_cases hp : (p.1 == acct) = true
    · rw [List.map_cons, if_pos hp]
      simp [hp]
    · rw [List.map_cons, if_neg hp]
      rw [List.find?_cons_of_neg (p := fun q => q.1 == acct) (a := p) _ hp,
        List.find?_cons_of_neg (p := fun q => q.1 == acct) (a := p) _ hp, ih]

lemma updateAccount_find? (accounts : List (String × StatsBucket)) (acct : String)
    (f : StatsBucket → StatsBucket) :
    (updateAccount accounts acct f).find? (fun p => p.1 == acct) =
      some (acct, f (match accounts.find? (fun p => p.1 == acct) with
                     | some p => p.2
                     | none => {})) := by
  by_cases h : (accounts.any fun p => p.1 == acct) = true
  · rw [updateAccount, if_pos h, find?_bump_map]
    have hsome : (accounts.find? (fun p => p.1 == acct)).isSome := by
      rw [List.find?_isSome]
      obtain ⟨x, hx, hpx⟩ := List.any_eq_true.mp h
      exact ⟨x, hx, hpx⟩
    obtain ⟨q, hq⟩ := Option.isSome_iff_exists.mp hsome
    have hq1 : q.1 = acct := by simpa using List.find?_some hq
    rw [hq]
    simp [hq1]
  · have hnone : accounts.find? (fun p => p.1 == acct) = none :=
      List.find?_eq_none.mpr (fun x hx hpx => h (List.any_eq_true.mpr ⟨x, hx, hpx⟩))
    rw [updateAccount, if_neg h, List.find?_append, hnone]
    simp

lemma accountBucket_record_fetch (s : Stats) (acct : String) (c : Nat) :
    (StatisticsService.record_fetch s acct c).accountBucket acct =
      bucketRecordFetch c (s.accountBucket acct) := by
  cases hf : s.accounts.find? (fun p => p.1 == acct) with
  | none =>
    simp [StatisticsService.record_fetch, Stats.accountBucket, updateAccount_find?, hf]
  | some p =>
    simp [StatisticsService.record_fetch, Stats.accountBucket, updateAccount_find?, hf]

lemma foldl_record_fetch (acct : String) :
    ∀ (cs : List Nat) (s : Stats),
      ((cs.foldl (fun st c => StatisticsService.record_fetch st acct c) s).global.fetch_runs =
          s.global.fetch_runs + cs.length) ∧
      ((cs.foldl (fun st c => StatisticsService.record_fetch st acct c) s).global.emails_seen =
          s.global.emails_seen + cs.sum) ∧
      (((cs.foldl (fun st c => StatisticsService.record_fetch st acct c) s).accountBucket
            acct).fetch_runs = (s.accountBucket acct).fetch_runs + cs.length) ∧
      (((cs.foldl (fun st c => StatisticsService.record_fetch st acct c) s).accountBucket
            acct).emails_seen = (s.accountBucket acct).emails_seen + cs.sum) := by
  intro cs
  induction cs with
  | nil => intro s; simp
  | cons c rest ih =>
    intro s
    obtain ⟨h1, h2, h3, h4⟩ := ih (StatisticsService.record_fetch s acct c)
    have e1 : (StatisticsService.record_fetch s acct c).global.fetch_runs =
        s.global.fetch_runs + 1 := rfl
    have e2 : (StatisticsService.record_fetch s acct c).global.emails_seen =
        s.global.emails_seen + c := rfl
    have e3 : ((StatisticsService.record_fetch s acct c).accountBucket acct).fetch_runs =
        (s.accountBucket acct).fetch_runs + 1 := by
      rw [accountBucket_record_fetch]; rfl
    have e4 : ((StatisticsService.record_fetch s acct c).accountBucket acct).emails_seen =
        (s.accountBucket acct).emails_seen + c := by
      rw [accountBucket_record_fetch]; rfl
    refine ⟨?_, ?_, ?_, ?_⟩ <;>
      rw [List.foldl_cons] <;>
      simp only [List.length_cons, List.sum_cons] <;>
      omega

/-- C9: starting from an empty statistics store, `N` calls
`record_fetch(acct, c_i)` leave `fetch_runs = N` and
`emails_seen = Σ c_i`, both in the global counters and in the
per-account bucket for `acct`. -/
theorem C9_record_fetch_monotonicity (acct : String) (cs : List Nat) :
    ((cs.foldl (fun st c => StatisticsService.record_fetch st acct c) Stats.empty).global.fetch_runs
        = cs.length) ∧
    ((cs.foldl (fun st c => StatisticsService.record_fetch st acct c) Stats.empty).global.emails_seen
        = cs.sum) ∧
    (((cs.foldl (fun st c => StatisticsService.record_fetch st acct c)
          Stats.empty).accountBucket acct).fetch_runs = cs.length) ∧
    (((cs.foldl (fun st c => StatisticsService.record_fetch st acct c)
          Stats.empty).accountBucket acct).emails_seen = cs.sum) := by
  obtain ⟨h1, h2, h3, h4⟩ := foldl_record_fetch acct cs Stats.empty
  have hb : Stats.empty.accountBucket acct = {} := rfl
  rw [h1, h2, h3, h4, hb]
  simp [Stats.empty]

/-! ## Canonicalization lemmas -/

lemma backTrim_eq_rdropWhile (l : List Char) : backTrim l = List.rdropWhile pyIsSpace l := rfl

lemma backTrim_prefix (l : List Char) : backTrim l <+: l := by
  rw [backTrim_eq_rdropWhile]
  exact List.rdropWhile_prefix _ _

lemma dropWhile_eq_self_of_prefix (p : Char → Bool) :
    ∀ {z y : List Char}, z <+: y → y.dropWhile p = y → z.dropWhile p = z := by
  intro z y hpre hy
  cases z with
  | nil => rfl
  | cons a m =>
    obtain ⟨t, ht⟩ := hpre
    have hpa : p a = false := by
      rw [← ht, List.cons_append, List.dropWhile_cons] at hy
      by_contra hpa
      rw [Bool.not_eq_false] at hpa
      rw [if_pos hpa] at hy
      have hle := (List.dropWhile_sublist (l := m ++ t) p).length_le
      rw [hy] at hle
      simp at hle
    rw [List.dropWhile_cons, hpa]
    simp

lemma pyStrip_idempotent (s : String) : pyStrip (pyStrip s) = pyStrip s := by
  have hdata : (pyStrip s).data = backTrim (frontTrim s.data) := rfl
  have h1 : frontTrim (backTrim (frontTrim s.data)) = backTrim (frontTrim s.data) :=
    dropWhile_eq_self_of_prefix pyIsSpace ( backTrim_prefix _)
      (List.dropWhile_idempotent _ _)
  have h2 : backTrim (backTrim (frontTrim s.data)) = backTrim (frontTrim s.data) := by
    rw [backTrim_eq_rdropWhile, backTrim_eq_rdropWhile]
    exact List.rdropWhile_idempotent _ _
  show (⟨backTrim (frontTrim (pyStrip s).data)⟩ : String) = pyStrip s
  rw [hdata, h1, h2]
  rfl

lemma clean_default : ∀ d ∈ DEFAULT_LABELS, cleanLabel d = some d := by decide

lemma canonicalName_mem (n : String)
    (h : (DEFAULT_LABELS.any fun v => pyLower v == pyLower n) = true) :
    canonicalName n ∈ DEFAULT_LABELS := by
  have hsome : (DEFAULT_LABELS.find? fun v => pyLower v == pyLower n).isSome := by
    rw [List.find?_isSome]
    obtain ⟨v, hv, hpv⟩ := List.any_eq_true.mp h
    exact ⟨v, hv, hpv⟩
  obtain ⟨w, hw⟩ := Option.isSome_iff_exists.mp hsome
  unfold canonicalName
  rw [hw]
  exact List.mem_of_find?_eq_some hw

lemma cleanLabel_fix {raw x : String} (h : cleanLabel raw = some x) : cleanLabel x = some x := by
  unfold cleanLabel at h
  by_cases h0 : pyStrip raw = ""
  · rw [if_pos h0] at h
    exact absurd h (by simp)
  · rw [if_neg h0] at h
    by_cases h1 : (DEFAULT_LABELS.any fun v => pyLower v == pyLower (pyStrip raw)) = true
    · rw [if_pos h1] at h
      have hx : canonicalName (pyStrip raw) = x := by injection h
      have hmem : x ∈ DEFAULT_LABELS := hx ▸ canonicalName_mem _ h1
      exact clean_default x hmem
    · rw [if_neg h1] at h
      have hx : pyStrip raw = x := by injection h
      subst hx
      unfold cleanLabel
      rw [pyStrip_idempotent, if_neg h0, if_neg h1]

lemma mem_filterAllowedLabels {x : String} {ls : List String} :
    x ∈ filterAllowedLabels ls ↔ ∃ raw ∈ ls, cleanLabel raw = some x := by
  simp [filterAllowedLabels, List.mem_filterMap]

lemma filterMap_eq_self_of (f : String → Option String) :
    ∀ l : List String, (∀ x ∈ l, f x = some x) → l.filterMap f = l := by
  intro l
  induction l with
  | nil => intro _; rfl
  | cons a m ih =>
    intro h
    rw [List.filterMap_cons, h a (List.mem_cons_self a m),
      ih (fun x hx => h x (List.mem_cons_of_mem a hx))]

lemma sorted_filterAllowedLabels (ls : List String) :
    (filterAllowedLabels ls).Sorted (fun a b : String => a ≤ b) :=
  List.sorted_insertionSort _ _

lemma nodup_filterAllowedLabels (ls : List String) : (filterAllowedLabels ls).Nodup :=
  (List.perm_insertionSort _ _).nodup_iff.mpr (List.nodup_dedup _)

lemma filterAllowed_idem (ls : List String) :
    filterAllowedLabels (filterAllowedLabels ls) = filterAllowedLabels ls := by
  have hfix : ∀ x ∈ filterAllowedLabels ls, cleanLabel x = some x := by
    intro x hx
    obtain ⟨raw, -, hraw⟩ := mem_filterAllowedLabels.mp hx
    exact cleanLabel_fix hraw
  show List.insertionSort _ ((filterAllowedLabels ls).filterMap cleanLabel).dedup =
    filterAllowedLabels ls
  rw [filterMap_eq_self_of _ _ hfix, List.dedup_eq_self.mpr (nodup_filterAllowedLabels ls)]
  exact (sorted_filterAllowedLabels ls).insertionSort_eq

lemma cleanLabel_wellKnown (s d : String) (hd : d ∈ DEFAULT_LABELS)
    (h : pyLower (pyStrip s) = pyLower d) : cleanLabel s = some d := by
  have hfind : DEFAULT_LABELS.find? (fun v => pyLower v == pyLower d) = some d := by
    fin_cases hd <;> decide
  have hne : pyStrip s ≠ "" := by
    intro he
    rw [he] at h
    have hd' : pyLower "" ≠ pyLower d := by fin_cases hd <;> decide
    exact hd' h
  unfold cleanLabel
  rw [if_neg hne]
  have hany : (DEFAULT_LABELS.any fun v => pyLower v == pyLower (pyStrip s)) = true :=
    List.any_eq_true.mpr ⟨d, hd, by rw [h]; exact beq_self_eq_true _⟩
  rw [if_pos hany]
  unfold canonicalName
  simp only [h, hfind]

/-- C5: the classifier's canonicalization is idempotent; `"work"`,
`"WORK"` and `"Work"` all canonicalize to `"Work"`; any label whose
lowercase (stripped) form matches a well-known label is rewritten to
that label's canonical casing; every other label passes through trimmed
of whitespace; labels empty after trimming are dropped; and membership
in the result is exactly "some raw label cleans to it". -/
theorem C5_canonicalization_idempotence :
    (∀ ls, filterAllowedLabels (filterAllowedLabels ls) = filterAllowedLabels ls) ∧
    (cleanLabel "work" = some "Work" ∧ cleanLabel "WORK" = some "Work" ∧
      cleanLabel "Work" = some "Work") ∧
    (∀ s d, d ∈ DEFAULT_LABELS → pyLower (pyStrip s) = pyLower d → cleanLabel s = some d) ∧
    (∀ s, pyStrip s ≠ "" →
      (DEFAULT_LABELS.any fun v => pyLower v == pyLower (pyStrip s)) = false →
      cleanLabel s = some (pyStrip s)) ∧
    (∀ s, pyStrip s = "" → cleanLabel s = none) ∧
    (∀ ls x, x ∈ filterAllowedLabels ls ↔ ∃ raw ∈ ls, cleanLabel raw = some x) := by
  refine ⟨filterAllowed_idem, ⟨by decide, by decide, by decide⟩, cleanLabel_wellKnown,
    ?_, ?_, fun ls x => mem_filterAllowedLabels⟩
  · intro s h0 h1
    unfold cleanLabel
    rw [if_neg h0, if_neg (by simp [h1])]
  · intro s h0
    unfold cleanLabel
    rw [if_pos h0]

/-- Witness for C5: the hypothesis-bearing parts applied at concrete
labels (`" work "` is a well-known rewrite, `" Custom "` passes through
trimmed, `"  "` is dropped). -/
theorem C5_canonicalization_idempotence_witness :
    cleanLabel " work " = some "Work" ∧
    cleanLabel " Custom " = some "Custom" ∧
    cleanLabel "  " = none :=
  ⟨C5_canonicalization_idempotence.2.2.1 " work " "Work" (by decide) (by decide),
   C5_canonicalization_idempotence.2.2.2.1 " Custom " (by decide) (by decide),
   C5_canonicalization_idempotence.2.2.2.2.1 "  " (by decide)⟩

/-! ## Stable-sort lemmas (Python `sorted` is a stable sort) -/

section StableSort

variable {α : Type} (r : α → α → Prop) [DecidableRel r] [IsTotal α r] [IsTrans α r]

omit [IsTotal α r] [IsTrans α r] in
lemma orderedInsert_of_forall (a : α) :
    ∀ l : List α, (∀ b ∈ l, r a b) → List.orderedInsert r a l = a :: l := by
  intro l h
  cases l with
  | nil => rfl
  | cons b m => exact List.orderedInsert_of_le r m (h b (List.mem_cons_self b m))

omit [IsTotal α r] [IsTrans α r] in
lemma orderedInsert_cons_of_not (a b : α) (m : List α) (hab : ¬r a b) :
    List.orderedInsert r a (b :: m) = b :: List.orderedInsert r a m := by
  show (if r a b then a :: b :: m else b :: List.orderedInsert r a m) = _
  rw [if_neg hab]

omit [IsTotal α r] in
lemma filter_orderedInsert (p : α → Bool) (a : α) :
    ∀ l : List α, l.Sorted r →
      (List.orderedInsert r a l).filter p =
        if p a then List.orderedInsert r a (l.filter p) else l.filter p := by
  intro l
  induction l with
  | nil =>
    intro _
    by_cases hpa : p a = true <;> simp [hpa]
  | cons b m ih =>
    intro hs
    obtain ⟨hb, hm⟩ := List.sorted_cons.mp hs
    have hins := ih hm
    by_cases hab : r a b
    · rw [List.orderedInsert_of_le r m hab]
      by_cases hpa : p a = true
      · by_cases hpb : p b = true
        · simp only [List.filter_cons, hpa, hpb, if_true]
          rw [List.orderedInsert_of_le r (m.filter p) hab]
        · have hpb' : p b = false := by simpa using hpb
          have hforall : ∀ c ∈ m.filter p, r a c :=
            fun c hc => Trans.trans hab (hb c (List.mem_filter.mp hc).1)
          simp only [List.filter_cons, hpa, hpb', Bool.false_eq_true, if_true, if_false]
          rw [orderedInsert_of_forall r a (m.filter p) hforall]
      · have hpa' : p a = false := by simpa using hpa
        simp [List.filter_cons, hpa']
    · rw [orderedInsert_cons_of_not r a b m hab]
      by_cases hpa : p a = true
      · rw [if_pos hpa] at hins
        rw [if_pos hpa]
        by_cases hpb : p b = true
        · simp only [List.filter_cons, hpb, if_true]
          rw [orderedInsert_cons_of_not r a b (m.filter p) hab, hins]
        · have hpb' : p b = false := by simpa using hpb
          simp only [List.filter_cons, hpb', Bool.false_eq_true, if_false]
          exact hins
      · have hpa' : p a = false := by simpa using hpa
        rw [if_neg hpa] at hins
        rw [if_neg hpa]
        by_cases hpb : p b = true
        · simp only [List.filter_cons, hpb, if_true, hins]
        · have hpb' : p b = false := by simpa using hpb
          simp only [List.filter_cons, hpb', Bool.false_eq_true, if_false]
          exact hins

lemma filter_insertionSort (p : α → Bool) :
    ∀ l : List α, (List.insertionSort r l).filter p = List.insertionSort r (l.filter p) := by
  intro l
  induction l with
  | nil => rfl
  | cons a m ih =>
    show (List.orderedInsert r a (List.insertionSort r m)).filter p = _
    rw [filter_orderedInsert r p a _ (List.sorted_insertionSort r m), ih]
    by_cases hpa : p a = true
    · rw [if_pos hpa]
      simp only [List.filter_cons, hpa, if_true]
      rfl
    · have hpa' : p a = false := by simpa using hpa
      rw [if_neg hpa]
      simp only [List.filter_cons, hpa', Bool.false_eq_true, if_false]

omit [IsTotal α r] [IsTrans α r] in
lemma insertionSort_eq_self_of_ties :
    ∀ l : List α, (∀ a ∈ l, ∀ b ∈ l, r a b) → List.insertionSort r l = l := by
  intro l
  induction l with
  | nil => intro _; rfl
  | cons a m ih =>
    intro h
    show List.orderedInsert r a (List.insertionSort r m) = a :: m
    rw [ih (fun x hx y hy =>
      h x (List.mem_cons_of_mem a hx) y (List.mem_cons_of_mem a hy))]
    exact orderedInsert_of_forall r a m
      (fun b hb => h a (List.mem_cons_self a m) b (List.mem_cons_of_mem a hb))

end StableSort

/-! ## Rules-engine theorems -/

lemma ruleMatches_of_empty_keywords (subject body : String) (r : Rule)
    (h : r.keywords = []) : ruleMatches subject body r = false := by
  simp [ruleMatches, Rule.normalized_keywords, h]

/-- C4: `match` returns exactly the labels of the rules whose enabled
fields contain some keyword as a case-insensitive substring, walking the
rules in non-increasing priority order with equal-priority rules kept in
definition order (the sorted rule list is a permutation of the loaded
rules, pairwise non-increasing in priority, and its sublist at any fixed
priority equals the definition-order sublist); a rule with keyword
`"Invoice"` matches the body `"this is an invoice"`. -/
theorem C4_match_priority_order (rules : List Rule) (email : EmailMessage) :
    (RulesEngine.match rules email =
      ((sortRulesDesc rules).filter
        (ruleMatches (pyLower email.subject) (pyLower email.body))).map Rule.label) ∧
    List.Perm (sortRulesDesc rules) rules ∧
    (sortRulesDesc rules).Pairwise (fun a b => b.priority ≤ a.priority) ∧
    (∀ p : Int, (sortRulesDesc rules).filter (fun r => r.priority == p) =
      rules.filter (fun r => r.priority == p)) ∧
    (∀ r : Rule, ruleMatches (pyLower email.subject) (pyLower email.body) r = true ↔
      ((r.match_subject = true ∧ ∃ kw ∈ r.keywords,
          pyContains (pyLower email.subject) (pyLower kw) = true) ∨
       (r.match_body = true ∧ ∃ kw ∈ r.keywords,
          pyContains (pyLower email.body) (pyLower kw) = true))) ∧
    ruleMatches (pyLower "") (pyLower "this is an invoice")
      { label := "Finance", keywords := ["Invoice"] } = true := by
  refine ⟨rfl, List.perm_insertionSort ruleBefore rules,
    List.sorted_insertionSort ruleBefore rules, ?_, ?_, by decide⟩
  · intro p
    have hcomm := filter_insertionSort ruleBefore (fun r : Rule => r.priority == p) rules
    show (List.insertionSort ruleBefore rules).filter (fun r => r.priority == p) = _
    rw [hcomm]
    refine insertionSort_eq_self_of_ties ruleBefore _ (fun a ha b hb => ?_)
    have ha' : a.priority = p := by simpa using (List.mem_filter.mp ha).2
    have hb' : b.priority = p := by simpa using (List.mem_filter.mp hb).2
    show b.priority ≤ a.priority
    rw [ha', hb']
  · intro r
    simp [ruleMatches, Rule.normalized_keywords, List.any_map, List.any_eq_true,
      Function.comp]

/-- C10: a rule whose keyword list is empty never matches any message
(so `match` is unchanged by deleting all zero-keyword rules, whatever
their `match_subject`/`match_body`/`priority` settings), and a
configuration entry omitting `"keywords"` loads as such a rule. -/
theorem C10_empty_keyword_rule_never_matches :
    (∀ subject body r, r.keywords = ([] : List String) →
      ruleMatches subject body r = false) ∧
    (∀ rules email, RulesEngine.match rules email =
      RulesEngine.match (rules.filter (fun r => !r.keywords.isEmpty)) email) ∧
    (∀ item : RuleItem, item.keywords = none → (ruleOfItem item).keywords = []) ∧
    RulesEngine.match [{ label := "X", keywords := [], priority := 100 }] sampleEmail = [] := by
  refine ⟨ruleMatches_of_empty_keywords, ?_, ?_, by decide⟩
  · intro rules email
    show List.map Rule.label
        ((sortRulesDesc rules).filter
          (ruleMatches (pyLower email.subject) (pyLower email.body))) =
      List.map Rule.label
        ((sortRulesDesc (rules.filter fun r => !r.keywords.isEmpty)).filter
          (ruleMatches (pyLower email.subject) (pyLower email.body)))
    have himp : ∀ a : Rule, ruleMatches (pyLower email.subject) (pyLower email.body) a =
        (ruleMatches (pyLower email.subject) (pyLower email.body) a && !a.keywords.isEmpty) := by
      intro a
      cases hq : a.keywords.isEmpty
      · simp
      · rw [ruleMatches_of_empty_keywords _ _ a (List.isEmpty_iff.mp hq)]
        simp [hq]
    have step1 : (sortRulesDesc rules).filter
          (ruleMatches (pyLower email.subject) (pyLower email.body)) =
        (sortRulesDesc rules).filter
          (fun a => ruleMatches (pyLower email.subject) (pyLower email.body) a &&
            !a.keywords.isEmpty) :=
      List.filter_congr (fun a _ => himp a)
    have step2 : (sortRulesDesc rules).filter
          (fun a => ruleMatches (pyLower email.subject) (pyLower email.body) a &&
            !a.keywords.isEmpty) =
        ((sortRulesDesc rules).filter (fun r => !r.keywords.isEmpty)).filter
          (ruleMatches (pyLower email.subject) (pyLower email.body)) := by
      rw [List.filter_filter]
    have step3 : (sortRulesDesc rules).filter (fun r : Rule => !r.keywords.isEmpty) =
        sortRulesDesc (rules.filter (fun r => !r.keywords.isEmpty)) :=
      filter_insertionSort ruleBefore _ rules
    rw [step1, step2, step3]
  · intro item h
    simp [ruleOfItem, h]

/-- Witness for C10: the hypothesis-bearing conjuncts at a concrete
zero-keyword rule and a concrete configuration entry without a
`"keywords"` field. -/
theorem C10_empty_keyword_rule_never_matches_witness :
    ruleMatches "subject text" "body text"
      { label := "X", keywords := [], match_subject := true, match_body := true,
        priority := 100 } = false ∧
    (ruleOfItem { label := "Work" }).keywords = [] :=
  ⟨C10_empty_keyword_rule_never_matches.1 "subject text" "body text" _ rfl,
   C10_empty_keyword_rule_never_matches.2.2.1 { label := "Work" } rfl⟩

/-! ## Classifier theorems -/

lemma classify_ofEngine (rules : List Rule) (ml : Option MLClassifier) (email : EmailMessage) :
    (EmailClassifier.ofEngine rules ml).classify email =
      Except.ok (filterAllowedLabels (rawLabels rules ml email)) := by
  have hrules : (EmailClassifier.ofEngine rules ml).rules_engine email =
      Except.ok (RulesEngine.match rules email) := rfl
  unfold EmailClassifier.classify rawLabels
  rw [hrules]
  simp only [bind, Except.bind, pure, Except.pure]
  cases h : (EmailClassifier.ofEngine rules ml).mlPrediction email with
  | none => simp
  | some p =>
    by_cases hp : p = ""
    · subst hp
      simp
    · simp [hp]

/-- C1: for the classifier assembled from a rules engine and an optional
predictor, `classify` returns normally (`Except.ok`) with the
lexicographically sorted, duplicate-free canonicalization of the union
of the rule labels and the truthy ML prediction; when nothing
contributes a label the result is the empty sequence, not an error. -/
theorem C1_classify_union_sorted (rules : List Rule) (ml : Option MLClassifier)
    (email : EmailMessage) :
    ∃ out : List String,
      (EmailClassifier.ofEngine rules ml).classify email = Except.ok out ∧
      out.Sorted (fun a b : String => a ≤ b) ∧ out.Nodup ∧
      (∀ s, s ∈ out ↔ ∃ raw ∈ rawLabels rules ml email, cleanLabel raw = some s) ∧
      (rawLabels rules ml email = [] → out = []) :=
  ⟨filterAllowedLabels (rawLabels rules ml email), classify_ofEngine rules ml email,
    sorted_filterAllowedLabels _, nodup_filterAllowedLabels _,
    fun _ => mem_filterAllowedLabels, fun h => by rw [h]; rfl⟩

/-- Witness for C1: the theorem applied at a concrete classifier (one
finance rule, no predictor) and the sample message. -/
theorem C1_classify_union_sorted_witness :
    ∃ out : List String,
      (EmailClassifier.ofEngine [{ label := "Finance", keywords := ["Invoice"] }]
          none).classify sampleEmail = Except.ok out ∧
      out.Sorted (fun a b : String => a ≤ b) ∧ out.Nodup ∧
      (∀ s, s ∈ out ↔
        ∃ raw ∈ rawLabels [{ label := "Finance", keywords := ["Invoice"] }] none sampleEmail,
          cleanLabel raw = some s) ∧
      (rawLabels [{ label := "Finance", keywords := ["Invoice"] }] none sampleEmail = [] →
        out = []) :=
  C1_classify_union_sorted [{ label := "Finance", keywords := ["Invoice"] }] none sampleEmail

/-- C2 (evaluating the code at the claim's failing input): with the
failing strategy in the rules slot and a predictor strategy that
returns `"Y"`, `classify` propagates the failure instead of returning
`["Y"]`; the second conjunct shows the same predictor alone does
produce `["Y"]`, so the exception discards a surviving strategy's
label. -/
theorem C2_strategy_failure_propagates :
    EmailClassifier.classify
      { rules_engine := fun _ => Except.error "strategy A failed"
        ml_classifier := some mlPredictY } sampleEmail =
      Except.error "strategy A failed" ∧
    EmailClassifier.classify
      { rules_engine := fun _ => Except.ok []
        ml_classifier := some mlPredictY } sampleEmail = Except.ok ["Y"] :=
  ⟨rfl, rfl⟩

/-- C6 counterexample: an internal pipeline failure propagates out of
`MLClassifier.predict` itself — `predict` does throw to its caller. -/
theorem C6_predict_throws_counterexample :
    mlRaising.predict "hello" = Except.error "model failure" := rfl

/-- C6 (amended): `predict` returns no prediction when the predictor is
not ready or the text is empty, but an internal pipeline failure
escapes `predict`; it is the classifier's `_ml_prediction` wrapper that
catches it (and a missing predictor yields none), so the failure
surfaces as "no prediction" one level up rather than inside `predict`. -/
theorem C6_predict_no_throw_amended :
    (∀ (c : MLClassifier) (text : String), c.is_ready = false →
      c.predict text = Except.ok none) ∧
    (∀ c : MLClassifier, c.predict "" = Except.ok none) ∧
    (∀ (re : EmailMessage → Except String (List String)) (ml : MLClassifier)
        (email : EmailMessage) (err : String),
      ml.predict (mlText email) = Except.error err →
      EmailClassifier.mlPrediction ⟨re, some ml⟩ email = none) ∧
    (∀ (re : EmailMessage → Except String (List String)) (email : EmailMessage),
      EmailClassifier.mlPrediction ⟨re, none⟩ email = none) := by
  refine ⟨?_, ?_, ?_, fun re email => rfl⟩
  · intro c text h
    simp [MLClassifier.predict, h]
  · intro c
    simp [MLClassifier.predict]
  · intro re ml email err h
    cases hready : ml.is_ready <;>
      simp [EmailClassifier.mlPrediction, hready, h]

/-- Witness for C6's amended statement: a never-configured predictor
returns no prediction, and the classifier wrapper swallows a concrete
pipeline failure. -/
theorem C6_predict_no_throw_amended_witness :
    MLClassifier.predict {} "hello" = Except.ok none ∧
    EmailClassifier.mlPrediction ⟨fun _ => Except.ok [], some mlRaising⟩ sampleEmail = none :=
  ⟨C6_predict_no_throw_amended.1 {} "hello" rfl,
   C6_predict_no_throw_amended.2.2.1 (fun _ => Except.ok []) mlRaising sampleEmail
     "model failure" rfl⟩

/-! ## Label-workflow (orchestrator) theorems -/

lemma labelStep_dry_eq (f : EmailMessage → List String) (g : String → String)
    (account ts : String) (st : RunState) (e : EmailMessage) :
    labelStep f g account ts true st e =
      if st.store.is_processed account e.id then { st with skipped := st.skipped + 1 }
      else if f e = [] then st
      else { st with appliedLabels := st.appliedLabels ++ f e } := by
  unfold labelStep
  by_cases h1 : st.store.is_processed account e.id = true
  · simp [h1]
  · by_cases h2 : f e = [] <;> simp [h1, h2]

lemma foldl_dry (f : EmailMessage → List String) (g : String → String) (account ts : String) :
    ∀ (emails : List EmailMessage) (st : RunState),
      ((emails.foldl (labelStep f g account ts true) st).store = st.store) ∧
      ((emails.foldl (labelStep f g account ts true) st).mail = st.mail) ∧
      ((emails.foldl (labelStep f g account ts true) st).stats = st.stats) ∧
      ((emails.foldl (labelStep f g account ts true) st).appliedLabels =
        st.appliedLabels ++
          (emails.filter (fun e => !st.store.is_processed account e.id &&
            !(f e).isEmpty)).flatMap f) := by
  intro emails
  induction emails with
  | nil => intro st; simp
  | cons e rest ih =>
    intro st
    rw [List.foldl_cons, labelStep_dry_eq]
    by_cases h1 : st.store.is_processed account e.id = true
    · rw [if_pos h1]
      obtain ⟨hs, hm, hst, ha⟩ := ih { st with skipped := st.skipped + 1 }
      have hpred : (!st.store.is_processed account e.id && !(f e).isEmpty) = false := by
        simp [h1]
      rw [List.filter_cons_of_neg (by simp [hpred])]
      exact ⟨hs, hm, hst, ha⟩
    · have h1' : st.store.is_processed account e.id = false := by simpa using h1
      rw [if_neg h1]
      by_cases h2 : f e = []
      · rw [if_pos h2]
        obtain ⟨hs, hm, hst, ha⟩ := ih st
        have hpred : (!st.store.is_processed account e.id && !(f e).isEmpty) = false := by
          simp [h1', h2]
        rw [List.filter_cons_of_neg (by simp [hpred])]
        exact ⟨hs, hm, hst, ha⟩
      · rw [if_neg h2]
        obtain ⟨hs, hm, hst, ha⟩ := ih { st with appliedLabels := st.appliedLabels ++ f e }
        have hpred : (!st.store.is_processed account e.id && !(f e).isEmpty) = true := by
          simp [h1', h2]
        rw [List.filter_cons_of_pos (by simp [h1', h2])]
        refine ⟨hs, hm, hst, ?_⟩
        rw [ha, List.flatMap_cons]
        simp [List.append_assoc]

/-- C7: a dry-run label pass makes no `ensure_label` or `apply_labels`
call, adds nothing to the processed ledger, records nothing in
statistics, yet still returns the per-label counts it would have
applied (for the fetched messages that are unprocessed and classify to
at least one label); an empty fetch returns the "nothing to do"
sentinel. -/
theorem C7_dry_run_no_mutation (f : EmailMessage → List String) (g : String → String)
    (account ts : String) (emails : List EmailMessage) (store : ProcessedStore)
    (stats : Stats) :
    ((performLabel f g account ts emails store stats true).2.mail = ({} : MailboxLog)) ∧
    ((performLabel f g account ts emails store stats true).2.store = store) ∧
    ((performLabel f g account ts emails store stats true).2.stats = stats) ∧
    (emails ≠ [] → ∃ skipped,
      (performLabel f g account ts emails store stats true).1 =
        some (countsOf ((emails.filter (fun e => !store.is_processed account e.id &&
          !(f e).isEmpty)).flatMap f), skipped)) ∧
    (emails = [] → (performLabel f g account ts emails store stats true).1 = none) := by
  have hfin : ∀ st : RunState, finalizeStats account true st = st := by
    intro st
    unfold finalizeStats
    simp
  by_cases hm : emails = []
  · subst hm
    exact ⟨rfl, rfl, rfl, fun h => absurd rfl h, fun _ => rfl⟩
  · obtain ⟨hs, hml, hst, ha⟩ :=
      foldl_dry f g account ts emails { store := store, stats := stats }
    unfold performLabel
    rw [if_neg hm]
    unfold runLoop
    simp only [hfin]
    refine ⟨hml, hs, hst, fun _ => ?_, fun h => absurd h hm⟩
    refine ⟨(emails.foldl (labelStep f g account ts true)
      { store := store, stats := stats }).skipped, ?_⟩
    show some (countsOf (emails.foldl (labelStep f g account ts true)
        { store := store, stats := stats }).appliedLabels, _) = _
    rw [ha]
    rfl

/-- Witness for C7: the theorem applied at the concrete two-message
dry run (one message already in the ledger, one fresh) and at the
empty fetch. -/
theorem C7_dry_run_no_mutation_witness :
    ((performLabel demoClassify demoEnsure "acct1" "t1" [emailAbc, emailFresh]
        (ProcessedStore.empty.mark_processed "acct1" "abc" "t0") Stats.empty true).2.mail =
      ({} : MailboxLog)) ∧
    ((performLabel demoClassify demoEnsure "acct1" "t1" [emailAbc, emailFresh]
        (ProcessedStore.empty.mark_processed "acct1" "abc" "t0") Stats.empty true).2.store =
      ProcessedStore.empty.mark_processed "acct1" "abc" "t0") ∧
    (∃ skipped,
      (performLabel demoClassify demoEnsure "acct1" "t1" [emailAbc, emailFresh]
          (ProcessedStore.empty.mark_processed "acct1" "abc" "t0") Stats.empty true).1 =
        some (countsOf (([emailAbc, emailFresh].filter (fun e =>
          !(ProcessedStore.empty.mark_processed "acct1" "abc" "t0").is_processed "acct1" e.id &&
          !(demoClassify e).isEmpty)).flatMap demoClassify), skipped)) ∧
    ((performLabel demoClassify demoEnsure "acct1" "t1" []
        (ProcessedStore.empty.mark_processed "acct1" "abc" "t0") Stats.empty true).1 = none) :=
  ⟨(C7_dry_run_no_mutation demoClassify demoEnsure "acct1" "t1" [emailAbc, emailFresh]
      (ProcessedStore.empty.mark_processed "acct1" "abc" "t0") Stats.empty).1,
   (C7_dry_run_no_mutation demoClassify demoEnsure "acct1" "t1" [emailAbc, emailFresh]
      (ProcessedStore.empty.mark_processed "acct1" "abc" "t0") Stats.empty).2.1,
   (C7_dry_run_no_mutation demoClassify demoEnsure "acct1" "t1" [emailAbc, emailFresh]
      (ProcessedStore.empty.mark_processed "acct1" "abc" "t0") Stats.empty).2.2.2.1
     (by decide),
   (C7_dry_run_no_mutation demoClassify demoEnsure "acct1" "t1" []
      (ProcessedStore.empty.mark_processed "acct1" "abc" "t0") Stats.empty).2.2.2.2 rfl⟩

/-- C8: an already-processed message is skipped — the loop step only
increments the skipped counter, independently of the classifier (no
classification, no mailbox call, no ledger write); a fresh message
with no labels leaves the state untouched (not counted as skipped);
and in the concrete two-message run with one premarked message the
returned skipped count is 1, the only apply call and the only new
ledger row belong to the fresh message. -/
theorem C8_already_processed_skipped :
    (∀ (f : EmailMessage → List String) (g : String → String) (account ts : String)
        (dry : Bool) (st : RunState) (e : EmailMessage),
      st.store.is_processed account e.id = true →
      labelStep f g account ts dry st e = { st with skipped := st.skipped + 1 }) ∧
    (∀ (f : EmailMessage → List String) (g : String → String) (account ts : String)
        (dry : Bool) (st : RunState) (e : EmailMessage),
      st.store.is_processed account e.id = false → f e = [] →
      labelStep f g account ts dry st e = st) ∧
    ((performLabel demoClassify demoEnsure "acct1" "t1" [emailAbc, emailFresh]
        (ProcessedStore.empty.mark_processed "acct1" "abc" "t0") Stats.empty false).1 =
      some ([("Work", 1)], 1)) ∧
    ((performLabel demoClassify demoEnsure "acct1" "t1" [emailAbc, emailFresh]
        (ProcessedStore.empty.mark_processed "acct1" "abc" "t0") Stats.empty false).2.mail =
      { ensured := ["Work"], applied := [("fresh1", ["id:Work"])] }) ∧
    ((performLabel demoClassify demoEnsure "acct1" "t1" [emailAbc, emailFresh]
        (ProcessedStore.empty.mark_processed "acct1" "abc" "t0") Stats.empty false).2.store =
      (ProcessedStore.empty.mark_processed "acct1" "abc" "t0").mark_processed
        "acct1" "fresh1" "t1") := by
  refine ⟨?_, ?_, by decide, by decide, by decide⟩
  · intro f g account ts dry st e h
    unfold labelStep
    simp [h]
  · intro f g account ts dry st e h1 h2
    unfold labelStep
    simp [h1, h2]

/-- Witness for C8: the skip step at a concrete premarked message and
the no-label step at a concrete fresh message. -/
theorem C8_already_processed_skipped_witness :
    (labelStep demoClassify demoEnsure "acct1" "t1" false
        { store := ProcessedStore.empty.mark_processed "acct1" "abc" "t0" } emailAbc =
      { store := ProcessedStore.empty.mark_processed "acct1" "abc" "t0",
        skipped := ({ store := ProcessedStore.empty.mark_processed "acct1" "abc" "t0"
                      : RunState }).skipped + 1 }) ∧
    (labelStep (fun _ => []) demoEnsure "acct1" "t1" false
        { store := ProcessedStore.empty.mark_processed "acct1" "abc" "t0" } emailFresh =
      { store := ProcessedStore.empty.mark_processed "acct1" "abc" "t0" }) :=
  ⟨C8_already_processed_skipped.1 demoClassify demoEnsure "acct1" "t1" false
      { store := ProcessedStore.empty.mark_processed "acct1" "abc" "t0" } emailAbc (by decide),
   C8_already_processed_skipped.2.1 (fun _ => []) demoEnsure "acct1" "t1" false
      { store := ProcessedStore.empty.mark_processed "acct1" "abc" "t0" } emailFresh
      (by decide) rfl⟩

end EmailAssistant
